import Mathlib


/-!
Verification of the scroll-tracking core of the scroll-tracker-browser
repository: a shallow embedding of the tracker classes
(ScrollTracker, TimeTracker, DomainStatsTracker) together with proofs of
the specified properties.  JavaScript numbers holding epoch-millisecond
timestamps, scroll deltas and counters are embedded as integers; the
wall clock (Date.now) is passed explicitly as a parameter; JS Map and
Set objects are embedded as association lists / lists with the usual
uniqueness representation invariants.
-/

/-! ## ScrollTracker (src/src/trackers/ScrollTracker.ts, latest revision)

State: totalScrollPoints and lastScrollY.  processScrollEvent adds the
absolute value of the delta to the running total.  The constructor takes
an optional initial count (used when restoring persisted stats). -/

structure ScrollTracker where
  totalScrollPoints : ℤ
  lastScrollY : ℤ
deriving Repr, DecidableEq

/-- constructor(initialScrollPoints: number = 0) -/
def ScrollTracker.new (initialScrollPoints : ℤ) : ScrollTracker :=
  { totalScrollPoints := initialScrollPoints, lastScrollY := 0 }

/-- processScrollEvent(scrollY, deltaY): adds abs(deltaY) to the total and
records the last scroll position. -/
def ScrollTracker.processScrollEvent (scrollY deltaY : ℤ) (s : ScrollTracker) :
    ScrollTracker :=
  { totalScrollPoints := s.totalScrollPoints + |deltaY|, lastScrollY := scrollY }

/-- Applying a whole list of (scrollY, deltaY) samples in order. -/
def ScrollTracker.applyEvents (s : ScrollTracker) (evs : List (ℤ × ℤ)) : ScrollTracker :=
  evs.foldl (fun st p => ScrollTracker.processScrollEvent p.1 p.2 st) s

/-! ## TimeTracker (src/unnamed/part_010, the revision used by the
current DomainStatsTracker: it is the only revision with pause/resume,
which DomainStatsTracker calls)

All wall-clock reads (Date.now()) are passed in explicitly.  The pending
setTimeout used to close a scroll burst is modelled as an optional
schedule time in the state; its callback is a separate step
(fireScrollTimeout) that may run once the delay has elapsed. -/

structure TimeTracker where
  sessionStartTime : ℤ
  scrollingTime : ℤ
  scrollSessionStartTime : ℤ
  isScrolling : Bool
  /-- models this.scrollTimeoutId: some t = a timeout scheduled at time t
  is pending, none = no pending timeout. -/
  scrollTimeoutId : Option ℤ
  isPaused : Bool
  pauseStartTime : ℤ
  totalPausedTime : ℤ
deriving Repr, DecidableEq

def TimeTracker.SCROLL_TIMEOUT : ℤ := 500

def TimeTracker.MIN_DELTA : ℤ := 2

/-- constructor(): sessionStartTime = Date.now(). -/
def TimeTracker.new (now : ℤ) : TimeTracker :=
  { sessionStartTime := now, scrollingTime := 0, scrollSessionStartTime := 0,
    isScrolling := false, scrollTimeoutId := none, isPaused := false,
    pauseStartTime := 0, totalPausedTime := 0 }

/-- processScrollEvent(deltaY, timestamp).  The event is processed at the
instant it carries (the host feeds Date.now()-stamped events), so the
setTimeout scheduled inside is recorded with that schedule time. -/
def TimeTracker.processScrollEvent (deltaY timestamp : ℤ) (s : TimeTracker) :
    TimeTracker :=
  if s.isPaused then s
  else if |deltaY| > TimeTracker.MIN_DELTA then
    let s1 := if s.isScrolling then s
      else { s with isScrolling := true, scrollSessionStartTime := timestamp }
    { s1 with scrollTimeoutId := some timestamp }
  else s

/-- The setTimeout callback: runs at some instant `now` at least
SCROLL_TIMEOUT after it was scheduled (and only if no later scroll event
cleared/rescheduled it); credits the elapsed scroll session. -/
def TimeTracker.fireScrollTimeout (now : ℤ) (s : TimeTracker) : TimeTracker :=
  match s.scrollTimeoutId with
  | none => s
  | some sched =>
    if sched + TimeTracker.SCROLL_TIMEOUT ≤ now then
      let s1 := { s with scrollTimeoutId := none }
      if s1.isScrolling ∧ 0 < s1.scrollSessionStartTime then
        { s1 with scrollingTime := s1.scrollingTime + (now - s1.scrollSessionStartTime),
                  isScrolling := false, scrollSessionStartTime := 0 }
      else s1
    else s

/-- The touch phases 'start' | 'move' | 'end'. -/
inductive TouchAction where
  | startA : TouchAction
  | moveA : TouchAction
  | endA : TouchAction
deriving Repr, DecidableEq

/-- processTouchEvent(action, timestamp). -/
def TimeTracker.processTouchEvent (action : TouchAction) (timestamp : ℤ)
    (s : TimeTracker) : TimeTracker :=
  if s.isPaused then s
  else match action with
  | .startA =>
    if s.isScrolling then s
    else { s with isScrolling := true, scrollSessionStartTime := timestamp }
  | .moveA => s
  | .endA =>
    if s.isScrolling ∧ 0 < s.scrollSessionStartTime then
      { s with scrollingTime := s.scrollingTime + (timestamp - s.scrollSessionStartTime),
               isScrolling := false, scrollSessionStartTime := 0 }
    else s

/-- pause(): no-op when already paused; otherwise records the pause start,
credits any in-progress scroll session up to now, and clears the timeout. -/
def TimeTracker.pause (now : ℤ) (s : TimeTracker) : TimeTracker :=
  if s.isPaused then s
  else
    let s1 := { s with isPaused := true, pauseStartTime := now }
    let s2 :=
      if s1.isScrolling ∧ 0 < s1.scrollSessionStartTime then
        { s1 with scrollingTime := s1.scrollingTime + (now - s1.scrollSessionStartTime),
                  isScrolling := false, scrollSessionStartTime := 0 }
      else s1
    { s2 with scrollTimeoutId := none }

/-- resume(): no-op when not paused; otherwise adds the elapsed pause
duration to totalPausedTime. -/
def TimeTracker.resume (now : ℤ) (s : TimeTracker) : TimeTracker :=
  if s.isPaused then
    { s with totalPausedTime := s.totalPausedTime + (now - s.pauseStartTime),
             isPaused := false, pauseStartTime := 0 }
  else s

structure TimeMetrics where
  scrollingTime : ℤ
  totalTime : ℤ
deriving Repr, DecidableEq

/-- getCurrentMetrics(): totalTime = now - sessionStartTime - totalPausedTime,
minus the in-progress pause when currently paused. -/
def TimeTracker.getCurrentMetrics (now : ℤ) (s : TimeTracker) : TimeMetrics :=
  let total0 := now - s.sessionStartTime - s.totalPausedTime
  let total := if s.isPaused ∧ 0 < s.pauseStartTime then total0 - (now - s.pauseStartTime)
    else total0
  { scrollingTime := s.scrollingTime, totalTime := total }

/-- Modelled from the spec: the repository's most recent TimeTracker
revision is constructed as new TimeTracker(scrollingTime, totalTime) by
DomainStatsTracker.initialize (src/src/trackers/ScrollTracker.ts line
251), but that revision's class body itself is absent from the source
tree (only this caller survives).  Per the spec, restore "seeds
accumulators/clocks from persisted values", so the restoring constructor
takes over the persisted active-scrolling total and re-bases the
wall-clock origin so that totalTime at the instant of construction
equals the persisted total time. -/
def TimeTracker.newFrom (now initScrollingTime initTotalTime : ℤ) : TimeTracker :=
  { sessionStartTime := now - initTotalTime, scrollingTime := initScrollingTime,
    scrollSessionStartTime := 0, isScrolling := false, scrollTimeoutId := none,
    isPaused := false, pauseStartTime := 0, totalPausedTime := 0 }

/-! ## The earlier TimeTracker revision (src/src/trackers/TimeTracker.ts)

This revision accrues active time incrementally: a significant scroll
sample whose gap to the previous one is within SCROLL_TIMEOUT = 150 ms
adds the gap to activeScrollTime; a larger gap adds nothing (the new
sample merely becomes the new reference point of a fresh burst). -/

structure TimeTrackerA where
  sessionStartTime : ℤ
  activeScrollTime : ℤ
  passiveViewTime : ℤ
  lastScrollTime : ℤ
  isScrolling : Bool
  scrollTimeoutId : Option ℤ
deriving Repr, DecidableEq

def TimeTrackerA.SCROLL_TIMEOUT : ℤ := 150

def TimeTrackerA.MIN_DELTA : ℤ := 2

def TimeTrackerA.new (now : ℤ) : TimeTrackerA :=
  { sessionStartTime := now, activeScrollTime := 0, passiveViewTime := 0,
    lastScrollTime := 0, isScrolling := false, scrollTimeoutId := none }

/-- processScrollEvent(deltaY, timestamp) of the 150 ms-continuity revision. -/
def TimeTrackerA.processScrollEvent (deltaY timestamp : ℤ) (s : TimeTrackerA) :
    TimeTrackerA :=
  if |deltaY| > TimeTrackerA.MIN_DELTA then
    let s1 := { s with isScrolling := true }
    let timeSinceLastScroll := if 0 < s1.lastScrollTime then timestamp - s1.lastScrollTime else 0
    let s2 :=
      if 0 < timeSinceLastScroll ∧ timeSinceLastScroll ≤ TimeTrackerA.SCROLL_TIMEOUT then
        { s1 with activeScrollTime := s1.activeScrollTime + timeSinceLastScroll }
      else s1
    { s2 with lastScrollTime := timestamp, scrollTimeoutId := some timestamp }
  else s

/-! ## Trace semantics for the TimeTracker (ActivityClock), claim C5

A session is a run of the tracker from its construction through a
sequence of timestamped events.  Every mutating entry point of the class
is an event; the host (single-threaded event loop) delivers events with
non-decreasing Date.now()-based timestamps, which is the well-formedness
condition on traces. -/

inductive TTEvent where
  | scroll : ℤ → TTEvent
  | touch : TouchAction → TTEvent
  | timerFire : TTEvent
  | pauseEv : TTEvent
  | resumeEv : TTEvent
deriving Repr, DecidableEq

/-- One event applied at instant t. -/
def TTEvent.apply (e : TTEvent) (t : ℤ) (s : TimeTracker) : TimeTracker :=
  match e with
  | .scroll d => TimeTracker.processScrollEvent d t s
  | .touch a => TimeTracker.processTouchEvent a t s
  | .timerFire => TimeTracker.fireScrollTimeout t s
  | .pauseEv => TimeTracker.pause t s
  | .resumeEv => TimeTracker.resume t s

/-- Running a timestamped trace, oldest event first. -/
def runTrace (s : TimeTracker) (tr : List (ℤ × TTEvent)) : TimeTracker :=
  tr.foldl (fun st p => TTEvent.apply p.2 p.1 st) s

/-- Event times are non-decreasing, starting no earlier than the given
base instant. -/
def timesOk : ℤ → List (ℤ × TTEvent) → Prop
  | _, [] => True
  | t, p :: rest => t ≤ p.1 ∧ timesOk p.1 rest

/-- The instant of the last event of the trace (the base instant for the
empty trace). -/
def lastTime (t : ℤ) (tr : List (ℤ × TTEvent)) : ℤ :=
  tr.foldl (fun _ p => p.1) t

/-- totalTime as reported by getCurrentMetrics at a given instant. -/
def TimeTracker.totalAt (s : TimeTracker) (now : ℤ) : ℤ :=
  (TimeTracker.getCurrentMetrics now s).totalTime

/-- The duration of the burst currently in progress (as the crediting
code would measure it at `now`). -/
def ttBurst (s : TimeTracker) (now : ℤ) : ℤ :=
  if s.isScrolling = true ∧ 0 < s.scrollSessionStartTime then now - s.scrollSessionStartTime
  else 0

/-- The state invariant of a TimeTracker observed at instant `now`:
counters are non-negative, every remembered instant lies in the past,
a paused tracker is never mid-burst, and the accumulated active time
(plus the burst in progress) never exceeds the reported total time. -/
def ttInv (s : TimeTracker) (now : ℤ) : Prop :=
  0 < now ∧
  0 ≤ s.scrollingTime ∧
  0 ≤ s.totalPausedTime ∧
  (s.isScrolling = true → 0 < s.scrollSessionStartTime ∧ s.scrollSessionStartTime ≤ now) ∧
  (s.isPaused = true → s.isScrolling = false ∧ 0 < s.pauseStartTime ∧ s.pauseStartTime ≤ now) ∧
  s.scrollingTime + ttBurst s now ≤ s.totalAt now

/-! ## DomainStatsTracker (src/src/trackers/ScrollTracker.ts, third
document in the file, the latest DomainStatsTracker revision)

JS Map objects are embedded as association lists in insertion order
(Map.set replaces in place or appends, Map.delete removes the entry);
the Map representation invariant — at most one entry per key — appears
as a Nodup hypothesis where a proof needs it.  JS Set objects (the
per-domain active-tab sets) are lists without duplicates. -/

def alGet {α : Type} (k : String) (l : List (String × α)) : Option α :=
  (l.find? (fun p => p.1 == k)).map Prod.snd

def alSet {α : Type} (k : String) (v : α) : List (String × α) → List (String × α)
  | [] => [(k, v)]
  | p :: rest => if p.1 == k then (k, v) :: rest else p :: alSet k v rest

def alErase {α : Type} (k : String) : List (String × α) → List (String × α)
  | [] => []
  | p :: rest => if p.1 == k then rest else p :: alErase k rest

/-! ### URL normalization

extractDomain calls the runtime's WHATWG URL constructor inside
try/catch and uses only `hostname` from the result.  jsURLHostname below
models that platform primitive for the inputs that matter here: a string
of the form scheme://host... with a non-empty alphabetic scheme parses
and yields the host portion (everything up to the first '/', '?', '#' or
':'); anything without a scheme://... shape fails to parse (the
constructor throws).  Hostnames are assumed already lower-case (the real
constructor lower-cases them). -/

def sysKey : String := "system"

def unknownKey : String := "unknown"

def aboutNewtab : String := "about:newtab"

def aboutBlank : String := "about:blank"

def emptyStr : String := ""

def isHostStop (c : Char) : Bool :=
  c == '/' || c == '?' || c == '#' || c == ':'

/-- Splits a character list at the first occurrence of "://". -/
def splitSchemeSep : List Char → Option (List Char × List Char)
  | [] => none
  | ':' :: '/' :: '/' :: rest => some ([], rest)
  | c :: rest => (splitSchemeSep rest).map (fun p => (c :: p.1, p.2))

/-- Modelled platform primitive: new URL(url).hostname, as a partial
function (none = the constructor throws). -/
def jsURLHostname (url : String) : Option String :=
  match splitSchemeSep url.toList with
  | none => none
  | some (sch, rest) =>
    if sch ≠ [] ∧ sch.all Char.isAlpha then
      some (String.mk (rest.takeWhile (fun c => !(isHostStop c))))
    else none

/-- JS String.prototype.split('.') on character lists. -/
def splitDot : List Char → List (List Char)
  | [] => [[]]
  | c :: rest =>
    if c = '.' then [] :: splitDot rest
    else
      match splitDot rest with
      | [] => [[c]]
      | h :: t => (c :: h) :: t

/-- Array.prototype.join('.') on character lists. -/
def dotJoinCL : List (List Char) → List Char
  | [] => []
  | [x] => x
  | x :: rest => x ++ '.' :: dotJoinCL rest

def secondLevelTLDs : List (List Char) :=
  [String.toList ("co"), String.toList ("com"), String.toList ("org"),
   String.toList ("net"), String.toList ("ac"), String.toList ("gov"),
   String.toList ("edu"), String.toList ("mil")]

/-- DomainStatsTracker.extractDomain: empty and about: URLs map to
'system'; a URL the constructor rejects maps to 'unknown'; otherwise the
hostname is collapsed to its registrable-domain form (last two labels,
or last three when the second-to-last label is a known second-level
TLD). -/
def extractDomain (url : String) : String :=
  if url = emptyStr ∨ url = aboutNewtab ∨ url = aboutBlank then sysKey
  else
    match jsURLHostname url with
    | none => unknownKey
    | some host =>
      let parts := splitDot host.toList
      if parts.length ≤ 1 then host
      else if 3 ≤ parts.length ∧ parts.getD (parts.length - 2) [] ∈ secondLevelTLDs then
        String.mk (dotJoinCL (parts.drop (parts.length - 3)))
      else
        String.mk (dotJoinCL (parts.drop (parts.length - 2)))

/-! ### DomainStatsTracker state and operations -/

structure SessionState where
  startTime : ℤ
  startScroll : ℤ
  startScrollTime : ℤ
  startTotalTime : ℤ
deriving Repr, DecidableEq

/-- A SessionLog row.  The source stores start/end as ISO strings; the
embedding keeps the underlying epoch instants (the encoding is an
injective pure formatting step). -/
structure SessionLog where
  domain : String
  startTime : ℤ
  endTime : ℤ
  scrollDistance : ℤ
  scrollTime : ℤ
  totalTime : ℤ
deriving Repr, DecidableEq

structure DomainEntry where
  scrollTracker : ScrollTracker
  timeTracker : TimeTracker
  lastVisited : ℤ
deriving Repr, DecidableEq

structure DomainStatsTracker where
  domainStats : List (String × DomainEntry)
  activeTabsByDomain : List (String × List String)
  activeSessions : List (String × SessionState)
  sessionLogs : List SessionLog
  isBackgrounded : Bool
deriving Repr, DecidableEq

/-- The in-memory state of a freshly constructed tracker (before any
restore): empty maps, not backgrounded. -/
def DomainStatsTracker.empty : DomainStatsTracker :=
  { domainStats := [], activeTabsByDomain := [], activeSessions := [],
    sessionLogs := [], isBackgrounded := false }

/-- getOrCreateTracker(domain): returns the existing entry or inserts a
fresh ScrollTracker/TimeTracker pair (created at Date.now()). -/
def DomainStatsTracker.getOrCreate (domain : String) (now : ℤ)
    (d : DomainStatsTracker) : DomainEntry × DomainStatsTracker :=
  match alGet domain d.domainStats with
  | some e => (e, d)
  | none =>
    let e : DomainEntry :=
      { scrollTracker := ScrollTracker.new 0, timeTracker := TimeTracker.new now,
        lastVisited := now }
    (e, { d with domainStats := alSet domain e d.domainStats })

/-- startSessionLog(domain): records the metric values at the open of the
attribution window. -/
def DomainStatsTracker.startSessionLog (domain : String) (now : ℤ)
    (d : DomainStatsTracker) : DomainStatsTracker :=
  let p := d.getOrCreate domain now
  let tm := TimeTracker.getCurrentMetrics now p.1.timeTracker
  let sess : SessionState :=
    { startTime := now, startScroll := p.1.scrollTracker.totalScrollPoints,
      startScrollTime := tm.scrollingTime, startTotalTime := tm.totalTime }
  { p.2 with activeSessions := alSet domain sess p.2.activeSessions }

/-- endSessionLog(domain): computes the visit's deltas and appends a
SessionLog row when scrollDistance > 10 AND totalTime > 1000 (this is
the code's condition as written; its own comment announces an OR),
capping the log at the last 10000 rows; the active session entry is
removed in every case. -/
def DomainStatsTracker.endSessionLog (domain : String) (now : ℤ)
    (d : DomainStatsTracker) : DomainStatsTracker :=
  match alGet domain d.activeSessions with
  | none => d
  | some sessionStart =>
    match alGet domain d.domainStats with
    | none => d
    | some tracker =>
      let tm := TimeTracker.getCurrentMetrics now tracker.timeTracker
      let log : SessionLog :=
        { domain := domain, startTime := sessionStart.startTime, endTime := now,
          scrollDistance := tracker.scrollTracker.totalScrollPoints - sessionStart.startScroll,
          scrollTime := tm.scrollingTime - sessionStart.startScrollTime,
          totalTime := tm.totalTime - sessionStart.startTotalTime }
      let logs1 :=
        if log.scrollDistance > 10 ∧ log.totalTime > 1000 then
          let pushed := d.sessionLogs ++ [log]
          if pushed.length > 10000 then pushed.drop (pushed.length - 10000) else pushed
        else d.sessionLogs
      { d with sessionLogs := logs1, activeSessions := alErase domain d.activeSessions }

/-- pauseDomainTracking(domain): pauses the domain's clock and closes its
session log entry (the save() call is persistence I/O with no in-memory
effect). -/
def DomainStatsTracker.pauseDomainTracking (domain : String) (now : ℤ)
    (d : DomainStatsTracker) : DomainStatsTracker :=
  match alGet domain d.domainStats with
  | none => d
  | some e =>
    let e1 : DomainEntry := { e with timeTracker := TimeTracker.pause now e.timeTracker }
    let d1 := { d with domainStats := alSet domain e1 d.domainStats }
    d1.endSessionLog domain now

/-- resumeDomainTracking(domain): resumes the clock, refreshes
lastVisited and opens a session log entry. -/
def DomainStatsTracker.resumeDomainTracking (domain : String) (now : ℤ)
    (d : DomainStatsTracker) : DomainStatsTracker :=
  let p := d.getOrCreate domain now
  let e1 : DomainEntry :=
    { p.1 with timeTracker := TimeTracker.resume now p.1.timeTracker, lastVisited := now }
  let d1 := { p.2 with domainStats := alSet domain e1 p.2.domainStats }
  d1.startSessionLog domain now

/-- processScrollEvent(url, scrollY, deltaY, timestamp): resolves the
domain, drops reserved keys, otherwise routes the sample to the domain's
trackers and refreshes lastVisited. -/
def DomainStatsTracker.processScrollEvent (url : String) (scrollY deltaY timestamp now : ℤ)
    (d : DomainStatsTracker) : DomainStatsTracker :=
  let domain := extractDomain url
  if domain = sysKey ∨ domain = unknownKey then d
  else
    let p := d.getOrCreate domain now
    let e1 : DomainEntry :=
      { scrollTracker := ScrollTracker.processScrollEvent scrollY deltaY p.1.scrollTracker,
        timeTracker := TimeTracker.processScrollEvent deltaY timestamp p.1.timeTracker,
        lastVisited := now }
    { p.2 with domainStats := alSet domain e1 p.2.domainStats }

/-- processTouchEvent(url, action, timestamp). -/
def DomainStatsTracker.processTouchEvent (url : String) (action : TouchAction)
    (timestamp now : ℤ) (d : DomainStatsTracker) : DomainStatsTracker :=
  let domain := extractDomain url
  if domain = sysKey ∨ domain = unknownKey then d
  else
    let p := d.getOrCreate domain now
    let e1 : DomainEntry :=
      { p.1 with timeTracker := TimeTracker.processTouchEvent action timestamp p.1.timeTracker }
    { p.2 with domainStats := alSet domain e1 p.2.domainStats }

/-- pause(url, tabId): removes the tab from the domain's active-tab set
and pauses/flushes the domain only when no active tab remains and the
app is not backgrounded. -/
def DomainStatsTracker.pause (url : String) (tabId : String) (now : ℤ)
    (d : DomainStatsTracker) : DomainStatsTracker :=
  let domain := extractDomain url
  if domain = sysKey ∨ domain = unknownKey then d
  else
    let tabs0 := match alGet domain d.activeTabsByDomain with
      | some t => t
      | none => []
    let tabs1 := tabs0.erase tabId
    let d1 := { d with activeTabsByDomain := alSet domain tabs1 d.activeTabsByDomain }
    if tabs1.length = 0 ∧ d1.isBackgrounded = false then
      d1.pauseDomainTracking domain now
    else d1

/-- resume(url, tabId): adds the tab to the domain's active-tab set; when
not backgrounded, resumes tracking unless a session is already active
(multi-tab case), in which case only lastVisited is refreshed. -/
def DomainStatsTracker.resume (url : String) (tabId : String) (now : ℤ)
    (d : DomainStatsTracker) : DomainStatsTracker :=
  let domain := extractDomain url
  if domain = sysKey ∨ domain = unknownKey then d
  else
    let tabs0 := match alGet domain d.activeTabsByDomain with
      | some t => t
      | none => []
    let tabs1 := if tabs0.contains tabId then tabs0 else tabs0 ++ [tabId]
    let d1 := { d with activeTabsByDomain := alSet domain tabs1 d.activeTabsByDomain }
    if d1.isBackgrounded = false then
      if (alGet domain d1.activeSessions).isSome then
        let p := d1.getOrCreate domain now
        let e1 : DomainEntry := { p.1 with lastVisited := now }
        { p.2 with domainStats := alSet domain e1 p.2.domainStats }
      else d1.resumeDomainTracking domain now
    else d1

/-! ### Snapshot (getAllStats) and restore (initialize) -/

/-- One row of the persisted stats snapshot: domain, scrollMetrics
(distancePixels), timeMetrics (scrollingTime, totalTime), lastVisited. -/
structure DomainStat where
  domain : String
  distancePixels : ℤ
  scrollingTime : ℤ
  totalTime : ℤ
  lastVisited : ℤ
deriving Repr, DecidableEq

/-- The row getAllStats builds for one map entry at instant `now`. -/
def entryToStat (now : ℤ) (p : String × DomainEntry) : DomainStat :=
  let tm := TimeTracker.getCurrentMetrics now p.2.timeTracker
  { domain := p.1, distancePixels := p.2.scrollTracker.totalScrollPoints,
    scrollingTime := tm.scrollingTime, totalTime := tm.totalTime,
    lastVisited := p.2.lastVisited }

/-- getAllStats(): per-domain rows sorted by lastVisited descending. -/
def DomainStatsTracker.getAllStats (now : ℤ) (d : DomainStatsTracker) : List DomainStat :=
  List.insertionSort (fun a b => b.lastVisited ≤ a.lastVisited)
    (d.domainStats.map (entryToStat now))

/-- JS `x || 0` on a number: 0 stays 0 (falsy), everything else is
returned unchanged. -/
def jsOrZero (x : ℤ) : ℤ := if x = 0 then 0 else x

/-- The map entry initialize() builds from one persisted row at instant
`now`: new ScrollTracker(distance), new TimeTracker(scrollingTime,
totalTime), lastVisited || Date.now(). -/
def statToEntry (now : ℤ) (st : DomainStat) : DomainEntry :=
  { scrollTracker := ScrollTracker.new (jsOrZero st.distancePixels),
    timeTracker := TimeTracker.newFrom now (jsOrZero st.scrollingTime) (jsOrZero st.totalTime),
    lastVisited := if st.lastVisited = 0 then now else st.lastVisited }

/-- initialize(): seeds domainStats from the persisted rows (skipping
rows whose domain is falsy, i.e. the empty string) and takes over the
persisted session logs; sessions/tabs start empty, not backgrounded. -/
def restoreStep (now : ℤ) (acc : List (String × DomainEntry)) (st : DomainStat) :
    List (String × DomainEntry) :=
  if st.domain = emptyStr then acc else alSet st.domain (statToEntry now st) acc

def restoreStats (now : ℤ) (stats : List DomainStat) (logs : List SessionLog) :
    DomainStatsTracker :=
  { domainStats := stats.foldl (restoreStep now) [], activeTabsByDomain := [],
    activeSessions := [], sessionLogs := logs, isBackgrounded := false }

/-- What the snapshot reports for one domain key: the metric triple
(distance, active scrolling time, total time), or none when the key is
absent. -/
def statFor (snap : List DomainStat) (dom : String) : Option (ℤ × ℤ × ℤ) :=
  (snap.find? (fun st => st.domain == dom)).map
    (fun st => (st.distancePixels, st.scrollingTime, st.totalTime))

/-! ### Concrete states used by the claim-level evaluations -/

def xcomKey : String := "x.com"

/-- A domain entry created at instant 1000 and untouched since: zero
scroll distance, zero active time. -/
def dwellEntry : DomainEntry :=
  { scrollTracker := ScrollTracker.new 0, timeTracker := TimeTracker.new 1000,
    lastVisited := 1000 }

/-- The session opened at instant 1000 with all start metrics zero. -/
def dwellSession : SessionState :=
  { startTime := 1000, startScroll := 0, startScrollTime := 0, startTotalTime := 0 }

/-- A tracker state with one open visit on x.com: pure dwell, no
scrolling. -/
def dwellState : DomainStatsTracker :=
  { domainStats := [(xcomKey, dwellEntry)], activeTabsByDomain := [],
    activeSessions := [(xcomKey, dwellSession)], sessionLogs := [],
    isBackgrounded := false }

def urlX : String := "https://x.com/"

def tabA : String := "tab1"

def tabB : String := "tab2"

def tabC : String := "tab3"

/-- A tracker state with one open x.com visit viewed by two tabs. -/
def twoTabState : DomainStatsTracker :=
  { domainStats := [(xcomKey, dwellEntry)],
    activeTabsByDomain := [(xcomKey, [tabA, tabB])],
    activeSessions := [(xcomKey, dwellSession)], sessionLogs := [],
    isBackgrounded := false }

def urlFtp : String := "ftp://example.com/files"

def exampleComKey : String := "example.com"

def emptyKeyEntry : DomainEntry :=
  { scrollTracker := ScrollTracker.new 5, timeTracker := TimeTracker.new 0,
    lastVisited := 50 }

/-- A store tracking the empty-string domain key.  Such a state is
reachable through the public sample API: a file: URL parses with an
empty hostname, extractDomain returns it verbatim (one label), and the
reserved-key guard only filters 'system' and 'unknown'. -/
def emptyKeyState : DomainStatsTracker :=
  { domainStats := [(emptyStr, emptyKeyEntry)], activeTabsByDomain := [],
    activeSessions := [], sessionLogs := [], isBackgrounded := false }


/-! ## Claim C4 : distance accumulation is the sum of absolute deltas -/

theorem scrollTracker_total_applyEvents (s : ScrollTracker) (evs : List (ℤ × ℤ)) :
    (s.applyEvents evs).totalScrollPoints
      = s.totalScrollPoints + (evs.map (fun p => |p.2|)).sum := by
  induction evs generalizing s with
  | nil => simp [ScrollTracker.applyEvents]
  | cons e rest ih =>
    simp only [ScrollTracker.applyEvents, List.foldl_cons, List.map_cons, List.sum_cons] at *
    rw [ih]
    simp [ScrollTracker.processScrollEvent]
    ring

/-- C4: for every finite sequence of scroll samples (scrollY, deltaY)
applied through ScrollTracker.processScrollEvent starting from a fresh
tracker, the reported total distance equals the sum of the absolute
values of the deltas, so negative (upward) deltas contribute their
absolute value and the total does not depend on the sign pattern. -/
theorem c4_distance_is_sum_of_abs (evs : List (ℤ × ℤ)) :
    ((ScrollTracker.new 0).applyEvents evs).totalScrollPoints
      = (evs.map (fun p => |p.2|)).sum := by
  rw [scrollTracker_total_applyEvents]
  simp [ScrollTracker.new]

/-! ## Claim C3 : burst-continuity accrual of the 150 ms revision -/

/-- C3: for a significant movement sample (|deltaY| > MIN_DELTA) arriving
at time t after a previous tick at lastScrollTime > 0, the 150 ms
TimeTracker revision credits exactly the elapsed gap when the gap is at
most SCROLL_TIMEOUT = 150, and credits nothing when the gap exceeds the
threshold; in both cases the sample becomes the new burst reference
point (lastScrollTime = t) and the clock is in the bursting state. -/
theorem c3_burst_continuity (s : TimeTrackerA) (d t : ℤ)
    (hd : |d| > TimeTrackerA.MIN_DELTA)
    (hprev : 0 < s.lastScrollTime) (hle : s.lastScrollTime ≤ t) :
    (t - s.lastScrollTime ≤ TimeTrackerA.SCROLL_TIMEOUT →
      (TimeTrackerA.processScrollEvent d t s).activeScrollTime
        = s.activeScrollTime + (t - s.lastScrollTime)) ∧
    (TimeTrackerA.SCROLL_TIMEOUT < t - s.lastScrollTime →
      (TimeTrackerA.processScrollEvent d t s).activeScrollTime
        = s.activeScrollTime) ∧
    (TimeTrackerA.processScrollEvent d t s).lastScrollTime = t ∧
    (TimeTrackerA.processScrollEvent d t s).isScrolling = true := by
  refine ⟨?_, ?_, ?_, ?_⟩
  · intro hgap
    simp only [TimeTrackerA.processScrollEvent, if_pos hd, if_pos hprev]
    by_cases h0 : 0 < t - s.lastScrollTime
    · simp [h0, hgap]
    · have h0' : t - s.lastScrollTime = 0 := by omega
      simp [h0']
  · intro hgap
    have hno : ¬ (t - s.lastScrollTime ≤ TimeTrackerA.SCROLL_TIMEOUT) := by omega
    simp only [TimeTrackerA.processScrollEvent, if_pos hd, if_pos hprev]
    simp [hno]
  · unfold TimeTrackerA.processScrollEvent
    rw [if_pos hd]
  · unfold TimeTrackerA.processScrollEvent
    rw [if_pos hd]
    dsimp only
    split <;> split <;> rfl

/-- Witness for C3 at a concrete input: previous tick at 1000, new
significant sample at 1100 (gap 100 ≤ 150) credits exactly 100. -/
theorem c3_burst_continuity_witness :
    (|(10 : ℤ)| > TimeTrackerA.MIN_DELTA) ∧
    ((TimeTrackerA.processScrollEvent 10 1100
        { TimeTrackerA.new 1 with lastScrollTime := 1000 }).activeScrollTime
      = 0 + (1100 - 1000)) := by
  refine ⟨by decide, ?_⟩
  have h := c3_burst_continuity { TimeTrackerA.new 1 with lastScrollTime := 1000 }
    10 1100 (by decide) (by decide) (by decide)
  exact h.1 (by decide)

/-! ## Claim C6 : pause idempotence, resume no-op -/

/-- C6: a second pause() with no intervening resume() leaves the tracker
in exactly the state a single pause() produced (so later totalTime()
reads agree and no elapsed time is double-subtracted), and resume() on a
non-paused tracker is a no-op. -/
theorem c6_pause_idempotent (s : TimeTracker) (t1 t2 : ℤ) :
    (TimeTracker.pause t2 (TimeTracker.pause t1 s) = TimeTracker.pause t1 s) ∧
    (∀ u : ℤ, (TimeTracker.pause t2 (TimeTracker.pause t1 s)).getCurrentMetrics u
        = (TimeTracker.pause t1 s).getCurrentMetrics u) ∧
    (s.isPaused = false → TimeTracker.resume t2 s = s) := by
  have hgen : ∀ s' : TimeTracker, s'.isPaused = true → TimeTracker.pause t2 s' = s' := by
    intro s' h
    simp [TimeTracker.pause, h]
  have hp : (TimeTracker.pause t1 s).isPaused = true := by
    unfold TimeTracker.pause
    split
    · assumption
    · dsimp only
      split <;> rfl
  refine ⟨hgen _ hp, ?_, ?_⟩
  · intro u
    rw [hgen _ hp]
  · intro h
    simp [TimeTracker.resume, h]

/-- Witness for C6 at a concrete state. -/
theorem c6_pause_idempotent_witness :
    ((TimeTracker.new 5).isPaused = false) ∧
    (TimeTracker.resume 9 (TimeTracker.new 5) = TimeTracker.new 5) := by
  exact ⟨by decide, (c6_pause_idempotent (TimeTracker.new 5) 7 9).2.2 (by decide)⟩

/-! ## Claim C9 : samples arriving while paused are ignored -/

/-- C9: while the TimeTracker is paused, processScrollEvent and
processTouchEvent leave the whole tracker state (scrollingTime, burst
state, every counter) unchanged. -/
theorem c9_paused_samples_ignored (s : TimeTracker) (h : s.isPaused = true)
    (d ts : ℤ) (a : TouchAction) :
    TimeTracker.processScrollEvent d ts s = s ∧
    TimeTracker.processTouchEvent a ts s = s := by
  constructor
  · unfold TimeTracker.processScrollEvent
    simp [h]
  · unfold TimeTracker.processTouchEvent
    simp [h]

/-- Witness for C9: a paused tracker at a concrete state ignores a scroll
sample and a touch sample. -/
theorem c9_paused_samples_ignored_witness :
    ({ TimeTracker.new 3 with isPaused := true, pauseStartTime := 4 }.isPaused = true) ∧
    (TimeTracker.processScrollEvent 50 6
        { TimeTracker.new 3 with isPaused := true, pauseStartTime := 4 }
      = { TimeTracker.new 3 with isPaused := true, pauseStartTime := 4 }) := by
  exact ⟨by decide,
    (c9_paused_samples_ignored
      { TimeTracker.new 3 with isPaused := true, pauseStartTime := 4 }
      (by decide) 50 6 TouchAction.startA).1⟩

/-! ## Claim C10 : the implicit minimum-delta threshold -/

/-- C10: a scroll sample with |deltaY| ≤ MIN_DELTA = 2 leaves the whole
TimeTracker state unchanged (no burst is started, no active time is
added), while the very same delta is still added in full (as |deltaY|)
to the distance total of the ScrollTracker: the two accumulators use
different significance thresholds. -/
theorem c10_min_delta_threshold (s : TimeTracker) (st : ScrollTracker)
    (d ts y : ℤ) (h : |d| ≤ TimeTracker.MIN_DELTA) :
    TimeTracker.processScrollEvent d ts s = s ∧
    (ScrollTracker.processScrollEvent y d st).totalScrollPoints
      = st.totalScrollPoints + |d| := by
  constructor
  · unfold TimeTracker.processScrollEvent
    have : ¬ (|d| > TimeTracker.MIN_DELTA) := by omega
    by_cases hp : s.isPaused <;> simp [hp, this]
  · rfl

/-- Witness for C10: deltaY = -2 is ignored by the TimeTracker but adds 2
to the distance total. -/
theorem c10_min_delta_threshold_witness :
    (|(-2 : ℤ)| ≤ TimeTracker.MIN_DELTA) ∧
    (TimeTracker.processScrollEvent (-2) 7 (TimeTracker.new 3) = TimeTracker.new 3) ∧
    ((ScrollTracker.processScrollEvent 40 (-2) (ScrollTracker.new 0)).totalScrollPoints
      = 0 + |(-2 : ℤ)|) := by
  have h := c10_min_delta_threshold (TimeTracker.new 3) (ScrollTracker.new 0)
    (-2) 7 40 (by decide)
  exact ⟨by decide, h.1, h.2⟩

theorem ttTotalAt_eq (s : TimeTracker) (now : ℤ) :
    s.totalAt now
      = if s.isPaused = true ∧ 0 < s.pauseStartTime
          then s.pauseStartTime - s.sessionStartTime - s.totalPausedTime
          else now - s.sessionStartTime - s.totalPausedTime := by
  unfold TimeTracker.totalAt TimeTracker.getCurrentMetrics
  dsimp only
  split <;> ring

theorem ttBurst_nonneg (s : TimeTracker) (now : ℤ) (h : ttInv s now) :
    0 ≤ ttBurst s now := by
  obtain ⟨-, -, -, h3, -, -⟩ := h
  unfold ttBurst
  split
  · next hc => have := (h3 hc.1).2; omega
  · omega

theorem ttInv_mono (s : TimeTracker) (t u : ℤ) (h : ttInv s t) (htu : t ≤ u) :
    ttInv s u := by
  obtain ⟨h0, h1, h2, h3, h4, h5⟩ := h
  refine ⟨by omega, h1, h2, ?_, ?_, ?_⟩
  · intro ha
    have := h3 ha
    omega
  · intro hp
    obtain ⟨ha, hb, hc⟩ := h4 hp
    exact ⟨ha, hb, by omega⟩
  · rw [ttTotalAt_eq] at *
    unfold ttBurst at *
    by_cases hsc : s.isScrolling = true ∧ 0 < s.scrollSessionStartTime
    · have hss := (h3 hsc.1).2
      by_cases hpp : s.isPaused = true ∧ 0 < s.pauseStartTime
      · exact absurd (h4 hpp.1).1 (by simp [hsc.1])
      · simp only [if_pos hsc, if_neg hpp] at *
        omega
    · by_cases hpp : s.isPaused = true ∧ 0 < s.pauseStartTime
      · simp only [if_pos hpp, if_neg hsc] at *
        omega
      · simp only [if_neg hpp, if_neg hsc] at *
        omega

theorem ttTotalAt_mono (s : TimeTracker) (t u : ℤ) (h : ttInv s t) (htu : t ≤ u) :
    s.totalAt t ≤ s.totalAt u := by
  obtain ⟨h0, h1, h2, h3, h4, h5⟩ := h
  rw [ttTotalAt_eq, ttTotalAt_eq]
  split <;> omega

theorem ttInv_processScrollEvent (s : TimeTracker) (d now : ℤ) (h : ttInv s now) :
    ttInv (TimeTracker.processScrollEvent d now s) now ∧
    s.scrollingTime ≤ (TimeTracker.processScrollEvent d now s).scrollingTime ∧
    s.totalAt now ≤ (TimeTracker.processScrollEvent d now s).totalAt now := by
  obtain ⟨sst, sct, sss, isc, tid, ips, pst, tpt⟩ := s
  cases ips <;> cases isc <;>
    simp only [ttInv, ttBurst, TimeTracker.totalAt, TimeTracker.getCurrentMetrics,
      TimeTracker.processScrollEvent, TimeTracker.MIN_DELTA] at h ⊢ <;>
    split_ifs at h ⊢ <;>
    simp_all

set_option maxHeartbeats 1000000 in
theorem ttInv_processTouchEvent (s : TimeTracker) (a : TouchAction) (now : ℤ)
    (h : ttInv s now) :
    ttInv (TimeTracker.processTouchEvent a now s) now ∧
    s.scrollingTime ≤ (TimeTracker.processTouchEvent a now s).scrollingTime ∧
    s.totalAt now ≤ (TimeTracker.processTouchEvent a now s).totalAt now := by
  obtain ⟨sst, sct, sss, isc, tid, ips, pst, tpt⟩ := s
  cases a <;> cases ips <;> cases isc <;>
    simp only [ttInv, ttBurst, TimeTracker.totalAt, TimeTracker.getCurrentMetrics,
      TimeTracker.processTouchEvent] at h ⊢ <;>
    split_ifs at h ⊢ <;>
    simp_all <;>
    omega

theorem ttInv_fireScrollTimeout (s : TimeTracker) (now : ℤ) (h : ttInv s now) :
    ttInv (TimeTracker.fireScrollTimeout now s) now ∧
    s.scrollingTime ≤ (TimeTracker.fireScrollTimeout now s).scrollingTime ∧
    s.totalAt now ≤ (TimeTracker.fireScrollTimeout now s).totalAt now := by
  obtain ⟨sst, sct, sss, isc, tid, ips, pst, tpt⟩ := s
  cases tid <;> cases ips <;> cases isc <;>
    simp only [ttInv, ttBurst, TimeTracker.totalAt, TimeTracker.getCurrentMetrics,
      TimeTracker.fireScrollTimeout] at h ⊢ <;>
    split_ifs at h ⊢ <;>
    simp_all <;>
    omega

theorem ttInv_pause (s : TimeTracker) (now : ℤ) (h : ttInv s now) :
    ttInv (TimeTracker.pause now s) now ∧
    s.scrollingTime ≤ (TimeTracker.pause now s).scrollingTime ∧
    s.totalAt now ≤ (TimeTracker.pause now s).totalAt now := by
  obtain ⟨sst, sct, sss, isc, tid, ips, pst, tpt⟩ := s
  cases ips <;> cases isc <;>
    simp only [ttInv, ttBurst, TimeTracker.totalAt, TimeTracker.getCurrentMetrics,
      TimeTracker.pause] at h ⊢ <;>
    split_ifs at h ⊢ <;>
    simp_all <;>
    omega

theorem ttInv_resume (s : TimeTracker) (now : ℤ) (h : ttInv s now) :
    ttInv (TimeTracker.resume now s) now ∧
    s.scrollingTime ≤ (TimeTracker.resume now s).scrollingTime ∧
    s.totalAt now ≤ (TimeTracker.resume now s).totalAt now := by
  obtain ⟨sst, sct, sss, isc, tid, ips, pst, tpt⟩ := s
  cases ips <;> cases isc <;>
    simp only [ttInv, ttBurst, TimeTracker.totalAt, TimeTracker.getCurrentMetrics,
      TimeTracker.resume] at h ⊢ <;>
    split_ifs at h ⊢ <;>
    simp_all <;>
    omega

theorem ttInv_new (t0 : ℤ) (h0 : 0 < t0) : ttInv (TimeTracker.new t0) t0 := by
  simp [ttInv, ttBurst, TimeTracker.new, TimeTracker.totalAt, TimeTracker.getCurrentMetrics, h0]

theorem ttInv_apply (s : TimeTracker) (e : TTEvent) (t u : ℤ)
    (h : ttInv s t) (htu : t ≤ u) :
    ttInv (TTEvent.apply e u s) u ∧
    s.scrollingTime ≤ (TTEvent.apply e u s).scrollingTime ∧
    s.totalAt t ≤ (TTEvent.apply e u s).totalAt u := by
  have h' := ttInv_mono s t u h htu
  have htot := ttTotalAt_mono s t u h htu
  cases e with
  | scroll d =>
    have := ttInv_processScrollEvent s d u h'
    exact ⟨this.1, this.2.1, le_trans htot this.2.2⟩
  | touch a =>
    have := ttInv_processTouchEvent s a u h'
    exact ⟨this.1, this.2.1, le_trans htot this.2.2⟩
  | timerFire =>
    have := ttInv_fireScrollTimeout s u h'
    exact ⟨this.1, this.2.1, le_trans htot this.2.2⟩
  | pauseEv =>
    have := ttInv_pause s u h'
    exact ⟨this.1, this.2.1, le_trans htot this.2.2⟩
  | resumeEv =>
    have := ttInv_resume s u h'
    exact ⟨this.1, this.2.1, le_trans htot this.2.2⟩

theorem ttInv_runTrace (tr : List (ℤ × TTEvent)) :
    ∀ (s : TimeTracker) (t : ℤ), ttInv s t → timesOk t tr →
    ttInv (runTrace s tr) (lastTime t tr) ∧
    s.scrollingTime ≤ (runTrace s tr).scrollingTime ∧
    s.totalAt t ≤ (runTrace s tr).totalAt (lastTime t tr) ∧
    t ≤ lastTime t tr := by
  induction tr with
  | nil =>
    intro s t h _
    exact ⟨h, le_refl _, le_refl _, le_refl _⟩
  | cons p rest ih =>
    intro s t h hok
    obtain ⟨htu, hok'⟩ := hok
    have hstep := ttInv_apply s p.2 t p.1 h htu
    have hrec := ih (TTEvent.apply p.2 p.1 s) p.1 hstep.1 hok'
    have e1 : runTrace s (p :: rest) = runTrace (TTEvent.apply p.2 p.1 s) rest := rfl
    have e2 : lastTime t (p :: rest) = lastTime p.1 rest := rfl
    rw [e1, e2]
    exact ⟨hrec.1, le_trans hstep.2.1 hrec.2.1, le_trans hstep.2.2 hrec.2.2.1,
      le_trans htu hrec.2.2.2⟩

theorem ttActive_le_total (s : TimeTracker) (now : ℤ) (h : ttInv s now) :
    (TimeTracker.getCurrentMetrics now s).scrollingTime
      ≤ (TimeTracker.getCurrentMetrics now s).totalTime := by
  have hb := ttBurst_nonneg s now h
  obtain ⟨-, -, -, -, -, h5⟩ := h
  have e1 : (TimeTracker.getCurrentMetrics now s).scrollingTime = s.scrollingTime := rfl
  have e2 : (TimeTracker.getCurrentMetrics now s).totalTime = s.totalAt now := rfl
  rw [e1, e2]
  omega

theorem timesOk_le_lastTime (tr : List (ℤ × TTEvent)) :
    ∀ t : ℤ, timesOk t tr → t ≤ lastTime t tr := by
  induction tr with
  | nil => intro t _; exact le_refl _
  | cons p rest ih =>
    intro t hok
    exact le_trans hok.1 (ih p.1 hok.2)

/-- C5: along every well-formed session of the TimeTracker (ActivityClock)
— construction at t0 > 0 followed by timestamped events with
non-decreasing times, observed via getCurrentMetrics first at instant u
(after the events of tr1) and later at instant v (after the further
events of tr2) — the active (scrolling) time never exceeds the total
time at either observation point, and both metrics are monotonically
non-decreasing from the first observation to the second, across any mix
of scroll, touch, timer, pause and resume events. -/
theorem c5_active_le_total_monotone (t0 : ℤ) (h0 : 0 < t0)
    (tr1 tr2 : List (ℤ × TTEvent)) (u v : ℤ)
    (hwf1 : timesOk t0 tr1) (hu : lastTime t0 tr1 ≤ u) (hwf2 : timesOk u tr2)
    (hv : lastTime u tr2 ≤ v) :
    ((TimeTracker.getCurrentMetrics u (runTrace (TimeTracker.new t0) tr1)).scrollingTime
      ≤ (TimeTracker.getCurrentMetrics u (runTrace (TimeTracker.new t0) tr1)).totalTime) ∧
    ((TimeTracker.getCurrentMetrics v (runTrace (TimeTracker.new t0) (tr1 ++ tr2))).scrollingTime
      ≤ (TimeTracker.getCurrentMetrics v (runTrace (TimeTracker.new t0) (tr1 ++ tr2))).totalTime) ∧
    ((TimeTracker.getCurrentMetrics u (runTrace (TimeTracker.new t0) tr1)).scrollingTime
      ≤ (TimeTracker.getCurrentMetrics v (runTrace (TimeTracker.new t0) (tr1 ++ tr2))).scrollingTime) ∧
    ((TimeTracker.getCurrentMetrics u (runTrace (TimeTracker.new t0) tr1)).totalTime
      ≤ (TimeTracker.getCurrentMetrics v (runTrace (TimeTracker.new t0) (tr1 ++ tr2))).totalTime) := by
  have H1 := ttInv_runTrace tr1 (TimeTracker.new t0) t0 (ttInv_new t0 h0) hwf1
  have hs1u : ttInv (runTrace (TimeTracker.new t0) tr1) u := ttInv_mono _ _ _ H1.1 hu
  have H2 := ttInv_runTrace tr2 (runTrace (TimeTracker.new t0) tr1) u hs1u hwf2
  have hs2 : runTrace (TimeTracker.new t0) (tr1 ++ tr2)
      = runTrace (runTrace (TimeTracker.new t0) tr1) tr2 := by
    unfold runTrace
    exact List.foldl_append _ _ _ _
  have hs2v : ttInv (runTrace (TimeTracker.new t0) (tr1 ++ tr2)) v := by
    rw [hs2]
    exact ttInv_mono _ _ _ H2.1 hv
  refine ⟨ttActive_le_total _ u hs1u, ttActive_le_total _ v hs2v, ?_, ?_⟩
  · have := H2.2.1
    rw [hs2]
    simpa [TimeTracker.getCurrentMetrics] using this
  · have hmono1 : (runTrace (TimeTracker.new t0) tr1).totalAt u
        ≤ (runTrace (runTrace (TimeTracker.new t0) tr1) tr2).totalAt (lastTime u tr2) :=
      H2.2.2.1
    have hmono2 : (runTrace (runTrace (TimeTracker.new t0) tr1) tr2).totalAt (lastTime u tr2)
        ≤ (runTrace (runTrace (TimeTracker.new t0) tr1) tr2).totalAt v :=
      ttTotalAt_mono _ _ _ H2.1 hv
    have e1 : (TimeTracker.getCurrentMetrics u (runTrace (TimeTracker.new t0) tr1)).totalTime
        = (runTrace (TimeTracker.new t0) tr1).totalAt u := rfl
    have e2 : (TimeTracker.getCurrentMetrics v (runTrace (TimeTracker.new t0) (tr1 ++ tr2))).totalTime
        = (runTrace (TimeTracker.new t0) (tr1 ++ tr2)).totalAt v := rfl
    rw [e1, e2, hs2]
    exact le_trans hmono1 hmono2

/-- Witness for C5: a concrete session — created at 1, a scroll burst at
2, a pause at 600, a resume at 900 — observed at instants 700 and 1000. -/
theorem c5_active_le_total_monotone_witness :
    ((0 : ℤ) < 1) ∧
    (timesOk 1 [((2 : ℤ), TTEvent.scroll 30), ((600 : ℤ), TTEvent.pauseEv)]) ∧
    (lastTime 1 [((2 : ℤ), TTEvent.scroll 30), ((600 : ℤ), TTEvent.pauseEv)] ≤ 700) ∧
    (timesOk 700 [((900 : ℤ), TTEvent.resumeEv)]) ∧
    (lastTime 700 [((900 : ℤ), TTEvent.resumeEv)] ≤ 1000) ∧
    ((TimeTracker.getCurrentMetrics 700 (runTrace (TimeTracker.new 1)
        [((2 : ℤ), TTEvent.scroll 30), ((600 : ℤ), TTEvent.pauseEv)])).scrollingTime
      ≤ (TimeTracker.getCurrentMetrics 700 (runTrace (TimeTracker.new 1)
        [((2 : ℤ), TTEvent.scroll 30), ((600 : ℤ), TTEvent.pauseEv)])).totalTime) := by
  refine ⟨by decide, by simp [timesOk], by simp [lastTime], by simp [timesOk],
    by simp [lastTime], ?_⟩
  exact (c5_active_le_total_monotone 1 (by decide)
    [((2 : ℤ), TTEvent.scroll 30), ((600 : ℤ), TTEvent.pauseEv)]
    [((900 : ℤ), TTEvent.resumeEv)] 700 1000
    (by simp [timesOk]) (by simp [lastTime]) (by simp [timesOk]) (by simp [lastTime])).1

theorem alGet_alSet_self {α : Type} (k : String) (v : α) (l : List (String × α)) :
    alGet k (alSet k v l) = some v := by
  induction l with
  | nil => simp [alGet, alSet]
  | cons p rest ih =>
    by_cases h : p.1 == k
    · simp [alGet, alSet, h, List.find?]
    · simp only [alSet, h, if_false]
      simpa [alGet, List.find?, h] using ih

theorem alGet_alSet_ne {α : Type} (k k' : String) (v : α) (l : List (String × α))
    (h : k ≠ k') : alGet k' (alSet k v l) = alGet k' l := by
  induction l with
  | nil => simp [alGet, alSet, List.find?, show (k == k') = false from by simpa using h]
  | cons p rest ih =>
    by_cases hp : p.1 == k
    · have hpk : p.1 = k := by simpa using hp
      simp [alGet, alSet, hp, List.find?, hpk, show (k == k') = false from by simpa using h]
    · by_cases hp' : p.1 == k'
      · simp [alGet, alSet, hp, List.find?, hp']
      · simp only [alSet, hp, if_false]
        simp only [alGet, List.find?, hp'] at *
        exact ih

theorem alGet_alErase_self {α : Type} (k : String) (l : List (String × α))
    (hnd : (l.map Prod.fst).Nodup) : alGet k (alErase k l) = none := by
  induction l with
  | nil => simp [alGet, alErase]
  | cons p rest ih =>
    simp only [List.map_cons, List.nodup_cons] at hnd
    by_cases hp : p.1 == k
    · have hpk : p.1 = k := by simpa using hp
      simp only [alErase, hp, if_true]
      simp only [alGet]
      rw [List.find?_eq_none.mpr]
      · rfl
      · intro q hq hq'
        have hqk : q.1 = k := by simpa using hq'
        refine hnd.1 ?_
        rw [hpk, ← hqk]
        exact List.mem_map_of_mem Prod.fst hq
    · simp only [alErase, hp, if_false]
      simp only [alGet, List.find?, hp]
      exact ih hnd.2

/-- C2 (code/comment divergence witnessed): closing the x.com visit at
instant 3000 gives a totalTime delta of 2000 ms — beyond the 1000 ms
minimum-duration threshold — with zero scroll distance.  The code's own
comment says a visit is kept when it scrolled enough OR stayed long
enough, so this visit should be logged; the code's condition is the
conjunction, so the visit is silently dropped: the session closes and no
SessionLog row is appended. -/
theorem c2_dwell_visit_dropped :
    ((TimeTracker.getCurrentMetrics 3000 dwellEntry.timeTracker).totalTime
        - dwellSession.startTotalTime = 2000) ∧
    (dwellEntry.scrollTracker.totalScrollPoints - dwellSession.startScroll = 0) ∧
    ((2000 : ℤ) > 1000) ∧
    ((DomainStatsTracker.endSessionLog xcomKey 3000 dwellState).sessionLogs = []) ∧
    (alGet xcomKey (DomainStatsTracker.endSessionLog xcomKey 3000 dwellState).activeSessions
      = none) := by
  refine ⟨by decide, by decide, by decide, by decide, by decide⟩

theorem tt_pause_isPaused (now : ℤ) (s : TimeTracker) :
    (TimeTracker.pause now s).isPaused = true := by
  unfold TimeTracker.pause
  split
  · assumption
  · dsimp only
    split <;> rfl

theorem tt_pause_of_paused (now : ℤ) (s : TimeTracker) (h : s.isPaused = true) :
    TimeTracker.pause now s = s := by
  simp [TimeTracker.pause, h]

theorem endSessionLog_domainStats (dom : String) (now : ℤ) (d : DomainStatsTracker) :
    (DomainStatsTracker.endSessionLog dom now d).domainStats = d.domainStats := by
  unfold DomainStatsTracker.endSessionLog
  rcases alGet dom d.activeSessions with _ | s1
  · rfl
  · rcases alGet dom d.domainStats with _ | tr <;> rfl

theorem endSessionLog_activeTabs (dom : String) (now : ℤ) (d : DomainStatsTracker) :
    (DomainStatsTracker.endSessionLog dom now d).activeTabsByDomain
      = d.activeTabsByDomain := by
  unfold DomainStatsTracker.endSessionLog
  rcases alGet dom d.activeSessions with _ | s1
  · rfl
  · rcases alGet dom d.domainStats with _ | tr <;> rfl

theorem endSessionLog_isBackgrounded (dom : String) (now : ℤ) (d : DomainStatsTracker) :
    (DomainStatsTracker.endSessionLog dom now d).isBackgrounded = d.isBackgrounded := by
  unfold DomainStatsTracker.endSessionLog
  rcases alGet dom d.activeSessions with _ | s1
  · rfl
  · rcases alGet dom d.domainStats with _ | tr <;> rfl

theorem endSessionLog_of_no_session (dom : String) (now : ℤ) (d : DomainStatsTracker)
    (h : alGet dom d.activeSessions = none) :
    DomainStatsTracker.endSessionLog dom now d = d := by
  unfold DomainStatsTracker.endSessionLog
  rw [h]

theorem endSessionLog_activeSessions_found (dom : String) (now : ℤ)
    (d : DomainStatsTracker) (s1 : SessionState) (tr : DomainEntry)
    (hs : alGet dom d.activeSessions = some s1)
    (ht : alGet dom d.domainStats = some tr) :
    (DomainStatsTracker.endSessionLog dom now d).activeSessions
      = alErase dom d.activeSessions := by
  unfold DomainStatsTracker.endSessionLog
  rw [hs, ht]

theorem endSessionLog_logs_shape (dom : String) (now : ℤ)
    (d : DomainStatsTracker) (s1 : SessionState) (tr : DomainEntry)
    (hs : alGet dom d.activeSessions = some s1)
    (ht : alGet dom d.domainStats = some tr)
    (hlen : d.sessionLogs.length < 10000) :
    (DomainStatsTracker.endSessionLog dom now d).sessionLogs = d.sessionLogs ∨
    ∃ lg : SessionLog,
      (DomainStatsTracker.endSessionLog dom now d).sessionLogs = d.sessionLogs ++ [lg] ∧
      lg.domain = dom := by
  unfold DomainStatsTracker.endSessionLog
  rw [hs, ht]
  dsimp only
  split
  · have hcap : ∀ lg : SessionLog, ¬ ((d.sessionLogs ++ [lg]).length > 10000) := by
      intro lg
      simp only [List.length_append, List.length_cons, List.length_nil]
      omega
    rw [if_neg (hcap _)]
    right
    exact ⟨_, rfl, rfl⟩
  · left
    rfl

theorem pauseDomainTracking_eq (dom : String) (now : ℤ) (d : DomainStatsTracker)
    (e : DomainEntry) (hentry : alGet dom d.domainStats = some e) :
    DomainStatsTracker.pauseDomainTracking dom now d
      = DomainStatsTracker.endSessionLog dom now
          ({ d with
              domainStats := alSet dom
                ({ e with timeTracker := TimeTracker.pause now e.timeTracker }) d.domainStats }) := by
  unfold DomainStatsTracker.pauseDomainTracking
  rw [hentry]

theorem dst_pause_eq (url dom tab : String) (now : ℤ) (d : DomainStatsTracker)
    (tabs : List String)
    (hdom : extractDomain url = dom)
    (hguard : ¬ (dom = sysKey ∨ dom = unknownKey))
    (htabs : alGet dom d.activeTabsByDomain = some tabs) :
    DomainStatsTracker.pause url tab now d
      = if (tabs.erase tab).length = 0 ∧ d.isBackgrounded = false
        then DomainStatsTracker.pauseDomainTracking dom now
          ({ d with activeTabsByDomain := alSet dom (tabs.erase tab) d.activeTabsByDomain })
        else { d with activeTabsByDomain := alSet dom (tabs.erase tab) d.activeTabsByDomain } := by
  unfold DomainStatsTracker.pause
  rw [hdom, if_neg hguard, htabs]

theorem dst_pause_noflush (url dom tab : String) (now : ℤ) (D : DomainStatsTracker)
    (hdom : extractDomain url = dom)
    (hguard : ¬ (dom = sysKey ∨ dom = unknownKey))
    (htabs0 : alGet dom D.activeTabsByDomain = some [])
    (hbgD : D.isBackgrounded = false)
    (E : DomainEntry) (hE : alGet dom D.domainStats = some E)
    (hnosess : alGet dom D.activeSessions = none) :
    (DomainStatsTracker.pause url tab now D).sessionLogs = D.sessionLogs := by
  rw [dst_pause_eq url dom tab now D [] hdom hguard htabs0]
  have h1 : (([] : List String).erase tab) = [] := rfl
  rw [h1, if_pos (by exact ⟨rfl, hbgD⟩)]
  have h2 := pauseDomainTracking_eq dom now
    ({ D with activeTabsByDomain := alSet dom [] D.activeTabsByDomain }) E hE
  rw [h2]
  exact (congrArg DomainStatsTracker.sessionLogs
    (endSessionLog_of_no_session dom now
      ({ domainStats :=
            alSet dom ({ E with timeTracker := TimeTracker.pause now E.timeTracker })
              D.domainStats,
          activeTabsByDomain := alSet dom [] D.activeTabsByDomain,
          activeSessions := D.activeSessions, sessionLogs := D.sessionLogs,
          isBackgrounded := D.isBackgrounded }) hnosess)).trans rfl

/-- C7: with two tabs a ≠ b both active on a tracked domain whose clock
is running and whose attribution session is open, dropping the first tab
leaves the domain entry untouched (the clock keeps running), the session
open and the log unchanged; dropping the second tab pauses the clock,
closes the session, and flushes it at most once (the log gains exactly
one row for this domain, or none when the visit is insignificant); a
further pause call for the same domain cannot flush a second time.  The
Nodup hypothesis is the Map representation invariant of activeSessions;
the log-length bound keeps the 10000-row cap out of play. -/
theorem c7_multi_consumer_refcount (d : DomainStatsTracker) (url dom a b c : String)
    (t1 t2 t3 : ℤ)
    (hdom : extractDomain url = dom)
    (hsys : dom ≠ sysKey) (hunk : dom ≠ unknownKey)
    (hab : a ≠ b)
    (htabs : alGet dom d.activeTabsByDomain = some [a, b])
    (hbg : d.isBackgrounded = false)
    (e : DomainEntry) (hentry : alGet dom d.domainStats = some e)
    (hrun : e.timeTracker.isPaused = false)
    (sess : SessionState) (hsess : alGet dom d.activeSessions = some sess)
    (hnd : (d.activeSessions.map Prod.fst).Nodup)
    (hlen : d.sessionLogs.length < 10000) :
    (alGet dom (DomainStatsTracker.pause url a t1 d).domainStats = some e ∧
     e.timeTracker.isPaused = false ∧
     alGet dom (DomainStatsTracker.pause url a t1 d).activeSessions = some sess ∧
     (DomainStatsTracker.pause url a t1 d).sessionLogs = d.sessionLogs) ∧
    (∃ e2 : DomainEntry,
      alGet dom (DomainStatsTracker.pause url b t2
        (DomainStatsTracker.pause url a t1 d)).domainStats = some e2 ∧
      e2.timeTracker.isPaused = true) ∧
    (alGet dom (DomainStatsTracker.pause url b t2
        (DomainStatsTracker.pause url a t1 d)).activeSessions = none) ∧
    ((DomainStatsTracker.pause url b t2
        (DomainStatsTracker.pause url a t1 d)).sessionLogs = d.sessionLogs ∨
      ∃ lg : SessionLog,
        (DomainStatsTracker.pause url b t2
          (DomainStatsTracker.pause url a t1 d)).sessionLogs = d.sessionLogs ++ [lg] ∧
        lg.domain = dom) ∧
    ((DomainStatsTracker.pause url c t3 (DomainStatsTracker.pause url b t2
        (DomainStatsTracker.pause url a t1 d))).sessionLogs
      = (DomainStatsTracker.pause url b t2
          (DomainStatsTracker.pause url a t1 d)).sessionLogs) := by
  have hguard : ¬ (dom = sysKey ∨ dom = unknownKey) := by
    intro hc
    cases hc with
    | inl h => exact hsys h
    | inr h => exact hunk h
  -- first drop: one tab remains, nothing is paused or flushed
  have hD1 : DomainStatsTracker.pause url a t1 d
      = { d with activeTabsByDomain := alSet dom [b] d.activeTabsByDomain } := by
    rw [dst_pause_eq url dom a t1 d [a, b] hdom hguard htabs]
    have h1 : (([a, b] : List String).erase a) = [b] := by simp
    rw [h1, if_neg (by simp)]
  rw [hD1]
  refine ⟨⟨hentry, hrun, hsess, rfl⟩, ?_⟩
  -- second drop: the last tab leaves; the domain is paused and flushed
  have htabs1 : alGet dom
      ({ d with activeTabsByDomain := alSet dom [b] d.activeTabsByDomain } :
        DomainStatsTracker).activeTabsByDomain = some [b] :=
    alGet_alSet_self dom [b] d.activeTabsByDomain
  have hD2 : DomainStatsTracker.pause url b t2
        ({ d with activeTabsByDomain := alSet dom [b] d.activeTabsByDomain })
      = DomainStatsTracker.endSessionLog dom t2
          ({ domainStats :=
                alSet dom ({ e with timeTracker := TimeTracker.pause t2 e.timeTracker })
                  d.domainStats,
              activeTabsByDomain := alSet dom [] (alSet dom [b] d.activeTabsByDomain),
              activeSessions := d.activeSessions, sessionLogs := d.sessionLogs,
              isBackgrounded := d.isBackgrounded }) := by
    rw [dst_pause_eq url dom b t2 _ [b] hdom hguard htabs1]
    have h1 : (([b] : List String).erase b) = [] := by simp
    rw [h1, if_pos (by exact ⟨rfl, hbg⟩)]
    have h2 := pauseDomainTracking_eq dom t2
      ({ domainStats := d.domainStats,
          activeTabsByDomain := alSet dom [] (alSet dom [b] d.activeTabsByDomain),
          activeSessions := d.activeSessions, sessionLogs := d.sessionLogs,
          isBackgrounded := d.isBackgrounded }) e hentry
    exact h2.trans rfl
  rw [hD2]
  have hsessD2a : alGet dom
      ({ domainStats :=
            alSet dom ({ e with timeTracker := TimeTracker.pause t2 e.timeTracker })
              d.domainStats,
          activeTabsByDomain := alSet dom [] (alSet dom [b] d.activeTabsByDomain),
          activeSessions := d.activeSessions, sessionLogs := d.sessionLogs,
          isBackgrounded := d.isBackgrounded } : DomainStatsTracker).activeSessions
        = some sess := hsess
  have hentryD2a : alGet dom
      ({ domainStats :=
            alSet dom ({ e with timeTracker := TimeTracker.pause t2 e.timeTracker })
              d.domainStats,
          activeTabsByDomain := alSet dom [] (alSet dom [b] d.activeTabsByDomain),
          activeSessions := d.activeSessions, sessionLogs := d.sessionLogs,
          isBackgrounded := d.isBackgrounded } : DomainStatsTracker).domainStats
        = some ({ e with timeTracker := TimeTracker.pause t2 e.timeTracker }) :=
    alGet_alSet_self dom _ d.domainStats
  refine ⟨?_, ?_, ?_, ?_⟩
  · refine ⟨{ e with timeTracker := TimeTracker.pause t2 e.timeTracker }, ?_,
      tt_pause_isPaused t2 e.timeTracker⟩
    rw [endSessionLog_domainStats]
    exact hentryD2a
  · rw [endSessionLog_activeSessions_found dom t2 _ sess _ hsessD2a hentryD2a]
    exact alGet_alErase_self dom d.activeSessions hnd
  · exact endSessionLog_logs_shape dom t2 _ sess _ hsessD2a hentryD2a hlen
  · -- a third drop finds no session and cannot flush again
    refine dst_pause_noflush url dom c t3 _ hdom hguard ?_ ?_
      ({ e with timeTracker := TimeTracker.pause t2 e.timeTracker }) ?_ ?_
    · rw [endSessionLog_activeTabs]
      exact alGet_alSet_self dom [] _
    · rw [endSessionLog_isBackgrounded]
      exact hbg
    · rw [endSessionLog_domainStats]
      exact hentryD2a
    · rw [endSessionLog_activeSessions_found dom t2 _ sess _ hsessD2a hentryD2a]
      exact alGet_alErase_self dom d.activeSessions hnd

/-- Witness for C7 at a concrete two-tab state: after the first drop the
session is still open, after the second it is closed. -/
theorem c7_multi_consumer_refcount_witness :
    (extractDomain urlX = xcomKey) ∧
    (alGet xcomKey (DomainStatsTracker.pause urlX tabA 5000 twoTabState).activeSessions
      = some dwellSession) ∧
    (alGet xcomKey (DomainStatsTracker.pause urlX tabB 6000
        (DomainStatsTracker.pause urlX tabA 5000 twoTabState)).activeSessions = none) := by
  have h := c7_multi_consumer_refcount twoTabState urlX xcomKey tabA tabB tabC
    5000 6000 7000 (by decide) (by decide) (by decide) (by decide) (by decide)
    (by decide) dwellEntry (by decide) (by decide) dwellSession (by decide)
    (by decide) (by decide)
  exact ⟨by decide, h.1.2.2.1, h.2.2.1⟩

/-- C8 counterexample: a perfectly parseable non-http URL does NOT
resolve to a reserved key — ftp://example.com/files normalizes to the
ordinary tracked key example.com, and a scroll sample attributed through
it creates a tracked per-domain metrics entry in a fresh store. -/
theorem c8_non_http_url_is_tracked :
    (extractDomain urlFtp = exampleComKey) ∧
    (exampleComKey ≠ sysKey) ∧ (exampleComKey ≠ unknownKey) ∧
    ((alGet exampleComKey
      (DomainStatsTracker.processScrollEvent urlFtp 0 10 5 5
        DomainStatsTracker.empty).domainStats).isSome = true) := by
  refine ⟨by decide, by decide, by decide, by decide⟩

/-- C8 (amended): domain normalization is total — empty and about: URLs
resolve to the reserved 'system' key, any URL the URL constructor
rejects resolves to the reserved 'unknown' key — and a sample or
lifecycle call attributed to a reserved key is a complete no-op on the
store: no per-domain metrics are created or mutated, no session log
entry can be produced, nothing reaches persistence.  (Parseable non-http
URLs, however, are normalized like any other URL and may yield ordinary
tracked keys.) -/
theorem c8_reserved_keys_inert (url : String) (d : DomainStatsTracker)
    (y dy ts now : ℤ) (tab : String) (act : TouchAction) :
    (url = emptyStr ∨ url = aboutNewtab ∨ url = aboutBlank → extractDomain url = sysKey) ∧
    (¬ (url = emptyStr ∨ url = aboutNewtab ∨ url = aboutBlank) →
      jsURLHostname url = none → extractDomain url = unknownKey) ∧
    (extractDomain url = sysKey ∨ extractDomain url = unknownKey →
      DomainStatsTracker.processScrollEvent url y dy ts now d = d ∧
      DomainStatsTracker.processTouchEvent url act ts now d = d ∧
      DomainStatsTracker.pause url tab now d = d ∧
      DomainStatsTracker.resume url tab now d = d) := by
  refine ⟨?_, ?_, ?_⟩
  · intro h
    unfold extractDomain
    rw [if_pos h]
  · intro h hparse
    unfold extractDomain
    rw [if_neg h, hparse]
  · intro hres
    refine ⟨?_, ?_, ?_, ?_⟩
    · unfold DomainStatsTracker.processScrollEvent
      rw [if_pos hres]
    · unfold DomainStatsTracker.processTouchEvent
      rw [if_pos hres]
    · unfold DomainStatsTracker.pause
      rw [if_pos hres]
    · unfold DomainStatsTracker.resume
      rw [if_pos hres]

/-- Witness for C8 (amended) at concrete inputs: an unparseable URL maps
to 'unknown' and a sample attributed to it leaves a concrete store
unchanged. -/
theorem c8_reserved_keys_inert_witness :
    (extractDomain ("not a url") = unknownKey) ∧
    (DomainStatsTracker.processScrollEvent ("not a url") 0 50 5 5 twoTabState
      = twoTabState) := by
  have h := c8_reserved_keys_inert ("not a url") twoTabState 0 50 5 5 tabA
    TouchAction.startA
  refine ⟨?_, ?_⟩
  · exact h.2.1 (by decide) (by decide)
  · exact (h.2.2 (Or.inr (h.2.1 (by decide) (by decide)))).1

theorem alGet_foldl_restoreStep_not_mem (now : ℤ) (stats : List DomainStat)
    (dom : String) (hnm : dom ∉ stats.map DomainStat.domain) :
    ∀ acc, alGet dom (stats.foldl (restoreStep now) acc) = alGet dom acc := by
  induction stats with
  | nil => intro acc; rfl
  | cons st rest ih =>
    intro acc
    simp only [List.map_cons, List.mem_cons, not_or] at hnm
    rw [List.foldl_cons, ih hnm.2]
    unfold restoreStep
    split
    · rfl
    · exact alGet_alSet_ne st.domain dom _ acc (fun h => hnm.1 h.symm)

theorem alGet_foldl_restoreStep (now : ℤ) (stats : List DomainStat) (dom : String)
    (hdom : dom ≠ emptyStr) (hnd : (stats.map DomainStat.domain).Nodup) :
    ∀ acc, alGet dom (stats.foldl (restoreStep now) acc)
      = (match stats.find? (fun st => st.domain == dom) with
          | some st => some (statToEntry now st)
          | none => alGet dom acc) := by
  induction stats with
  | nil => intro acc; rfl
  | cons st rest ih =>
    intro acc
    simp only [List.map_cons, List.nodup_cons] at hnd
    rw [List.foldl_cons]
    by_cases hst : st.domain = dom
    · have hb : (st.domain == dom) = true := beq_iff_eq.mpr hst
      have hfind_eq : List.find? (fun s : DomainStat => s.domain == dom) (st :: rest)
          = some st := by
        simp [List.find?, hb]
      rw [hfind_eq]
      have hnm : dom ∉ rest.map DomainStat.domain := by
        rw [← hst]
        exact hnd.1
      rw [alGet_foldl_restoreStep_not_mem now rest dom hnm]
      unfold restoreStep
      rw [hst, if_neg hdom, alGet_alSet_self]
    · have hb : (st.domain == dom) = false := by
        simpa using hst
      have hfind_eq : List.find? (fun s : DomainStat => s.domain == dom) (st :: rest)
          = List.find? (fun s : DomainStat => s.domain == dom) rest := by
        simp [List.find?, hb]
      rw [hfind_eq, ih hnd.2]
      rcases hfind : rest.find? (fun s : DomainStat => s.domain == dom) with _ | st'
      · simp only [hfind]
        unfold restoreStep
        split
        · rfl
        · exact alGet_alSet_ne st.domain dom _ acc hst
      · simp only [hfind]

theorem find?_eq_of_perm_of_unique {α : Type} (p : α → Bool) (l l' : List α)
    (hperm : l.Perm l')
    (hu : ∀ x ∈ l, ∀ y ∈ l, p x = true → p y = true → x = y) :
    l.find? p = l'.find? p := by
  rcases hfl : l.find? p with _ | x
  · rcases hfl' : l'.find? p with _ | y
    · rfl
    · have hy : y ∈ l := hperm.mem_iff.mpr (List.mem_of_find?_eq_some hfl')
      have := List.find?_eq_none.mp hfl y hy
      exact absurd (List.find?_some hfl') this
  · have hx : x ∈ l := List.mem_of_find?_eq_some hfl
    have hpx : p x = true := List.find?_some hfl
    have hsome : (l'.find? p).isSome := by
      rw [List.find?_isSome]
      exact ⟨x, hperm.mem_iff.mp hx, hpx⟩
    rcases hfl' : l'.find? p with _ | y
    · rw [hfl'] at hsome
      exact absurd hsome (by simp)
    · have hy : y ∈ l := hperm.mem_iff.mpr (List.mem_of_find?_eq_some hfl')
      have hpy : p y = true := List.find?_some hfl'
      rw [hu x hx y hy hpx hpy]

theorem unique_of_nodup_field {α β : Type} (f : α → β) (l : List α)
    (hnd : (l.map f).Nodup) (b : β) :
    ∀ x ∈ l, ∀ y ∈ l, f x = b → f y = b → x = y := by
  induction l with
  | nil => intro x hx; exact absurd hx (List.not_mem_nil x)
  | cons a rest ih =>
    simp only [List.map_cons, List.nodup_cons] at hnd
    intro x hx y hy hfx hfy
    rcases List.mem_cons.mp hx with hxa | hxr
    · rcases List.mem_cons.mp hy with hya | hyr
      · rw [hxa, hya]
      · exfalso
        refine hnd.1 ?_
        have hay : f a = f y := by
          rw [hxa] at hfx
          rw [hfx, hfy]
        rw [hay]
        exact List.mem_map_of_mem f hyr
    · rcases List.mem_cons.mp hy with hya | hyr
      · exfalso
        refine hnd.1 ?_
        have hax : f a = f x := by
          rw [hya] at hfy
          rw [hfy, hfx]
        rw [hax]
        exact List.mem_map_of_mem f hxr
      · exact ih hnd.2 x hxr y hyr hfx hfy

theorem keys_alSet {α : Type} (k : String) (v : α) (l : List (String × α)) :
    (alSet k v l).map Prod.fst
      = if k ∈ l.map Prod.fst then l.map Prod.fst else l.map Prod.fst ++ [k] := by
  induction l with
  | nil => simp [alSet]
  | cons p rest ih =>
    by_cases hp : p.1 == k
    · have hpk : p.1 = k := by simpa using hp
      simp [alSet, hp, hpk]
    · have hpk : ¬ p.1 = k := by simpa using hp
      have hb : (p.1 == k) = false := by simpa using hp
      simp only [alSet, hb, Bool.false_eq_true, if_false, List.map_cons, ih]
      by_cases hmem : k ∈ rest.map Prod.fst
      · rw [if_pos hmem, if_pos (List.mem_cons.mpr (Or.inr hmem))]
      · have hnmem : k ∉ p.1 :: rest.map Prod.fst := by
          intro hc
          rcases List.mem_cons.mp hc with h | h
          · exact hpk h.symm
          · exact hmem h
        rw [if_neg hmem, if_neg hnmem]
        simp

theorem keys_nodup_alSet {α : Type} (k : String) (v : α) (l : List (String × α))
    (hnd : (l.map Prod.fst).Nodup) : ((alSet k v l).map Prod.fst).Nodup := by
  rw [keys_alSet]
  split
  · exact hnd
  · next hmem =>
    simp [List.nodup_append, hnd, hmem]

theorem keys_nodup_foldl_restoreStep (now : ℤ) (stats : List DomainStat) :
    ∀ acc : List (String × DomainEntry), ((acc.map Prod.fst).Nodup) →
    (((stats.foldl (restoreStep now) acc).map Prod.fst).Nodup) := by
  induction stats with
  | nil => intro acc h; exact h
  | cons st rest ih =>
    intro acc h
    rw [List.foldl_cons]
    refine ih _ ?_
    unfold restoreStep
    split
    · exact h
    · exact keys_nodup_alSet st.domain _ acc h

theorem jsOrZero_eq (x : ℤ) : jsOrZero x = x := by
  unfold jsOrZero
  split <;> omega

theorem metrics_newFrom (now a T : ℤ) :
    TimeTracker.getCurrentMetrics now (TimeTracker.newFrom now a T)
      = { scrollingTime := a, totalTime := T } := by
  simp only [TimeTracker.getCurrentMetrics, TimeTracker.newFrom]
  rw [if_neg (by simp)]
  simp only [TimeMetrics.mk.injEq]
  refine ⟨trivial, by omega⟩

theorem map_domain_entryToStat (now : ℤ) (l : List (String × DomainEntry)) :
    (l.map (entryToStat now)).map DomainStat.domain = l.map Prod.fst := by
  rw [List.map_map]
  rfl

/-- What statFor reports over the unsorted row list, in terms of the
underlying map. -/
theorem statFor_map_unsorted (now : ℤ) (l : List (String × DomainEntry)) (dom : String) :
    statFor (l.map (entryToStat now)) dom
      = (alGet dom l).map (fun e =>
          (e.scrollTracker.totalScrollPoints,
           (TimeTracker.getCurrentMetrics now e.timeTracker).scrollingTime,
           (TimeTracker.getCurrentMetrics now e.timeTracker).totalTime)) := by
  induction l with
  | nil => rfl
  | cons p rest ih =>
    rcases hb : (p.1 == dom) with _ | _
    · have hfind : List.find? (fun st : DomainStat => st.domain == dom)
          ((p :: rest).map (entryToStat now))
          = List.find? (fun st : DomainStat => st.domain == dom)
              (rest.map (entryToStat now)) := by
        simp only [List.map_cons, List.find?]
        have : ((entryToStat now p).domain == dom) = false := hb
        rw [this]
      have hget : alGet dom (p :: rest) = alGet dom rest := by
        simp only [alGet, List.find?, hb]
      unfold statFor at *
      rw [hfind, hget, ih]
    · have hfind : List.find? (fun st : DomainStat => st.domain == dom)
          ((p :: rest).map (entryToStat now))
          = some (entryToStat now p) := by
        simp only [List.map_cons, List.find?]
        have : ((entryToStat now p).domain == dom) = true := hb
        rw [this]
      have hget : alGet dom (p :: rest) = some p.2 := by
        simp only [alGet, List.find?, hb]
        rfl
      unfold statFor
      rw [hfind, hget]
      rfl

/-- Sorting the snapshot does not change what is reported for a key,
provided the rows carry pairwise distinct domains. -/
theorem statFor_insertionSort (rows : List DomainStat) (dom : String)
    (hnd : (rows.map DomainStat.domain).Nodup) :
    statFor (List.insertionSort (fun a b => b.lastVisited ≤ a.lastVisited) rows) dom
      = statFor rows dom := by
  unfold statFor
  rw [find?_eq_of_perm_of_unique _ _ rows
    (List.perm_insertionSort (fun a b => b.lastVisited ≤ a.lastVisited) rows) ?hu]
  case hu =>
    intro x hx y hy hpx hpy
    have hx' : x ∈ rows :=
      (List.perm_insertionSort (fun a b => b.lastVisited ≤ a.lastVisited) rows).mem_iff.mp hx
    have hy' : y ∈ rows :=
      (List.perm_insertionSort (fun a b => b.lastVisited ≤ a.lastVisited) rows).mem_iff.mp hy
    exact unique_of_nodup_field DomainStat.domain rows hnd dom x hx' y hy'
      (beq_iff_eq.mp hpx) (beq_iff_eq.mp hpy)

/-- Core of the round-trip property: restoring from any snapshot whose
rows have pairwise distinct domains and snapshotting again (at the
restore instant) reports, for every non-empty domain key, exactly the
metric triple of the original snapshot. -/
theorem statFor_roundtrip (now2 : ℤ) (stats : List DomainStat) (logs : List SessionLog)
    (hnd : (stats.map DomainStat.domain).Nodup) (dom : String) (hdom : dom ≠ emptyStr) :
    statFor (DomainStatsTracker.getAllStats now2 (restoreStats now2 stats logs)) dom
      = statFor stats dom := by
  have hds := alGet_foldl_restoreStep now2 stats dom hdom hnd []
  have hdsnd : ((stats.foldl (restoreStep now2) []).map Prod.fst).Nodup :=
    keys_nodup_foldl_restoreStep now2 stats [] (by simp)
  have hrowsnd :
      (((stats.foldl (restoreStep now2) []).map (entryToStat now2)).map DomainStat.domain).Nodup := by
    rw [map_domain_entryToStat]
    exact hdsnd
  unfold DomainStatsTracker.getAllStats restoreStats
  dsimp only
  rw [statFor_insertionSort _ dom hrowsnd]
  rw [statFor_map_unsorted]
  rw [hds]
  rcases hfind : stats.find? (fun st => st.domain == dom) with _ | st
  · unfold statFor
    rw [hfind]
    rfl
  · unfold statFor
    rw [hfind]
    simp [statToEntry, jsOrZero_eq, metrics_newFrom, ScrollTracker.new]

theorem snapshot_keys_nodup (now1 : ℤ) (d : DomainStatsTracker)
    (hnd : (d.domainStats.map Prod.fst).Nodup) :
    ((DomainStatsTracker.getAllStats now1 d).map DomainStat.domain).Nodup := by
  unfold DomainStatsTracker.getAllStats
  have hperm := (List.perm_insertionSort (fun a b => b.lastVisited ≤ a.lastVisited)
    (d.domainStats.map (entryToStat now1))).map DomainStat.domain
  refine hperm.nodup_iff.mpr ?_
  rw [map_domain_entryToStat]
  exact hnd

/-- C1 (amended): for every StatsStore state whose domain keys are
pairwise distinct (the Map representation invariant) and non-empty,
restoring from the snapshot and snapshotting again at the restore
instant reports, for every such domain key, exactly the same distance,
active (scrolling) time and total time as the original snapshot; keys
absent from the original snapshot stay absent.  (The restoring
TimeTracker constructor is modelled from the spec, its class body being
absent from the tree.) -/
theorem c1_restore_roundtrip (d : DomainStatsTracker) (now1 now2 : ℤ)
    (logs : List SessionLog)
    (hnd : (d.domainStats.map Prod.fst).Nodup)
    (dom : String) (hdom : dom ≠ emptyStr) :
    statFor (DomainStatsTracker.getAllStats now2
        (restoreStats now2 (DomainStatsTracker.getAllStats now1 d) logs)) dom
      = statFor (DomainStatsTracker.getAllStats now1 d) dom :=
  statFor_roundtrip now2 (DomainStatsTracker.getAllStats now1 d) logs
    (snapshot_keys_nodup now1 d hnd) dom hdom

/-- Witness for C1 at a concrete store: the x.com metrics survive the
snapshot/restore/snapshot round trip unchanged. -/
theorem c1_restore_roundtrip_witness :
    ((twoTabState.domainStats.map Prod.fst).Nodup ∧ xcomKey ≠ emptyStr) ∧
    (statFor (DomainStatsTracker.getAllStats 9000
        (restoreStats 9000 (DomainStatsTracker.getAllStats 8000 twoTabState) []))
        xcomKey
      = statFor (DomainStatsTracker.getAllStats 8000 twoTabState) xcomKey) := by
  exact ⟨⟨by decide, by decide⟩,
    c1_restore_roundtrip twoTabState 8000 9000 [] (by decide) xcomKey (by decide)⟩

/-- C1 counterexample: the round trip as claimed fails on a store whose
per-domain table carries the empty-string key — initialize() skips rows
with a falsy domain, so the restored store reports nothing for a key the
original snapshot reports.  The last two conjuncts show the state is
reachable: a scroll sample for a file: URL creates exactly this tracked
key. -/
theorem c1_roundtrip_drops_empty_key :
    (statFor (DomainStatsTracker.getAllStats 100 emptyKeyState) emptyStr
      = some (5, 0, 100)) ∧
    (statFor (DomainStatsTracker.getAllStats 100
        (restoreStats 100 (DomainStatsTracker.getAllStats 100 emptyKeyState) []))
        emptyStr = none) ∧
    (extractDomain ("file:///notes.txt") = emptyStr) ∧
    ((alGet emptyStr (DomainStatsTracker.processScrollEvent ("file:///notes.txt")
        0 10 5 5 DomainStatsTracker.empty).domainStats).isSome = true) := by
  refine ⟨by decide, by decide, by decide, by decide⟩
